import Mathlib

/-!
Verification of the call audio bridge and provider protocol adapter of the
sip-ai-agent repository, against its natural-language specification.

Byte strings are modelled as `List Nat` (one element per byte).  Every
definition is a shallow embedding of the corresponding function of
`src/app/agent.py`, `src/app/openai_agent.py` or `src/app/sip_client.py`;
machine-level details that the verified claims do not touch (actual WebSocket
transport, PJSIP media frames, logging payloads) are abstracted to the state
they read and write.
-/

namespace SipAgent

/-! ### Audio framing constants (src/app/agent.py lines 136-142) -/

def SAMPLE_RATE : Nat := 16000

def CHANNELS : Nat := 1

def FRAME_DURATION : Nat := 20

def PCM_WIDTH : Nat := 2

/-- `FRAME_BYTES = SAMPLE_RATE * FRAME_DURATION // 1000 * PCM_WIDTH` = 640. -/
def FRAME_BYTES : Nat := SAMPLE_RATE * FRAME_DURATION / 1000 * PCM_WIDTH

def MAX_PENDING_FRAMES : Nat := 50

/-! ### `AudioCallback._normalize_chunk` (src/app/agent.py lines 279-286)

```python
def _normalize_chunk(self, data: bytes) -> bytes:
    if not data:
        return b"\x00" * FRAME_BYTES
    if len(data) < FRAME_BYTES:
        return data + b"\x00" * (FRAME_BYTES - len(data))
    if len(data) > FRAME_BYTES:
        return data[:FRAME_BYTES]
    return data
```
(`if not data` is the emptiness test on a byte string.)
-/

def normalizeChunk (data : List Nat) : List Nat :=
  if data = [] then List.replicate FRAME_BYTES 0
  else if data.length < FRAME_BYTES then
    data ++ List.replicate (FRAME_BYTES - data.length) 0
  else if FRAME_BYTES < data.length then data.take FRAME_BYTES
  else data

/-! ### `AudioCallback.putFrame` accumulation loop (src/app/agent.py lines 290-302)

```python
self._capture_buffer.extend(data)
while len(self._capture_buffer) >= FRAME_BYTES:
    chunk = bytes(self._capture_buffer[:FRAME_BYTES])
    del self._capture_buffer[:FRAME_BYTES]
    self._blocking_put(self.capture_queue, chunk)
```
The same slicing loop appears in `queue_playback_frame` (lines 321-329).
Each loop iteration removes exactly `FRAME_BYTES` elements, so the loop runs
exactly `len // FRAME_BYTES` times; `takeFrames` iterates that many times,
returning the emitted frames (oldest first) and the remaining buffer.
-/

def takeFrames : Nat → List Nat → List (List Nat) × List Nat
  | 0, buf => ([], buf)
  | n + 1, buf =>
    if FRAME_BYTES ≤ buf.length then
      let res := takeFrames n (buf.drop FRAME_BYTES)
      (buf.take FRAME_BYTES :: res.1, res.2)
    else ([], buf)

/-- One `putFrame` (or `queue_playback_frame`) call: extend the accumulation
buffer with the incoming chunk, then slice off full frames while at least
`FRAME_BYTES` bytes remain.  Returns (emitted frames, new buffer). -/
def putFrame (buffer data : List Nat) : List (List Nat) × List Nat :=
  takeFrames ((buffer ++ data).length / FRAME_BYTES) (buffer ++ data)

/-! ### Retry configuration defaults (src/app/config.py lines 131-135)

`SIP_REG_RETRY_BASE = 2.0`, `SIP_REG_RETRY_MAX = 60.0`,
`SIP_INVITE_RETRY_BASE = 1.0`, `SIP_INVITE_RETRY_MAX = 30.0`,
`SIP_INVITE_MAX_ATTEMPTS = 5`.  Delays are modelled as rationals.
-/

def SIP_REG_RETRY_BASE : ℚ := 2

def SIP_REG_RETRY_MAX : ℚ := 60

def SIP_INVITE_RETRY_BASE : ℚ := 1

def SIP_INVITE_RETRY_MAX : ℚ := 30

def SIP_INVITE_MAX_ATTEMPTS : Nat := 5

/-! ### `Call._schedule_invite_retry` (src/app/agent.py lines 529-551)

```python
if self._invite_attempts >= SIP_INVITE_MAX_ATTEMPTS:
    self._log_event("Invite retry limit reached", ...)
    return
delay = min(SIP_INVITE_RETRY_BASE * (2 ** self._invite_attempts), SIP_INVITE_RETRY_MAX)
self._invite_attempts += 1
...
self._invite_retry_timer.schedule(delay)
```
-/

inductive InviteRetryOutcome where
  | scheduled (delay : ℚ)
  | limitReached
deriving DecidableEq

/-- One `_schedule_invite_retry` call on the attempts counter: returns the
emitted outcome and the updated counter. -/
def scheduleInviteRetry (attempts : Nat) : InviteRetryOutcome × Nat :=
  if SIP_INVITE_MAX_ATTEMPTS ≤ attempts then
    (InviteRetryOutcome.limitReached, attempts)
  else
    (InviteRetryOutcome.scheduled
      (min (SIP_INVITE_RETRY_BASE * 2 ^ attempts) SIP_INVITE_RETRY_MAX),
     attempts + 1)

/-- The delay computed for a given attempts value. -/
def inviteDelay (attempts : Nat) : ℚ :=
  min (SIP_INVITE_RETRY_BASE * 2 ^ attempts) SIP_INVITE_RETRY_MAX

/-- `n` successive `_schedule_invite_retry` calls without an intervening
success reset (the reset at `PJSIP_INV_STATE_CONFIRMED` sets the counter to
0), collecting the outcomes. -/
def inviteRetryLoop : Nat → Nat → List InviteRetryOutcome
  | 0, _ => []
  | n + 1, attempts =>
    let r := scheduleInviteRetry attempts
    r.1 :: inviteRetryLoop n r.2

/-- The disconnect-path retry gate of `Call.onCallState`
(src/app/agent.py lines 524-527):

```python
if (self.target_uri and ci.role == pj.PJSIP_ROLE_UAC and status_code
        and 400 <= status_code < 600):
    self._schedule_invite_retry(status_code)
```
-/
def disconnectSchedulesRetry (hasTargetUri isUAC : Bool) (statusCode : Nat) : Bool :=
  hasTargetUri && isUAC && decide (statusCode ≠ 0) &&
    decide (400 ≤ statusCode) && decide (statusCode < 600)

/-! ### `Account` registration retry (src/app/agent.py lines 1039-1052, 1090-1101)

```python
def _schedule_registration_retry(self, status_code):
    delay = min(SIP_REG_RETRY_BASE * (2 ** self._reg_retry_attempts), SIP_REG_RETRY_MAX)
    self._reg_retry_attempts += 1
    ...
    self._reg_retry_timer.schedule(delay)
```
There is no attempt cap on this path.
-/

def scheduleRegistrationRetry (attempts : Nat) : ℚ × Nat :=
  (min (SIP_REG_RETRY_BASE * 2 ^ attempts) SIP_REG_RETRY_MAX, attempts + 1)

inductive RegAction where
  | resetSuccess
  | scheduled (delay : ℚ)
  | noAction
deriving DecidableEq

/-- `Account.onRegState` (src/app/agent.py lines 1039-1052): status 200
resets the counter and cancels the timer; a 4xx-5xx status schedules a
retry; other statuses do nothing. -/
def onRegState (regStatus attempts : Nat) : RegAction × Nat :=
  if regStatus = 200 then (RegAction.resetSuccess, 0)
  else if 400 ≤ regStatus ∧ regStatus < 600 then
    (RegAction.scheduled (scheduleRegistrationRetry attempts).1,
     (scheduleRegistrationRetry attempts).2)
  else (RegAction.noAction, attempts)

/-- `EnhancedAccount._schedule_reconnect` (src/app/sip_client.py lines
337-357): skipped while a reconnect task is pending, otherwise increments
the counter first and arms a task after `backoff ** attempts` seconds. -/
def enhancedScheduleReconnect (backoff : ℚ) (attempts : Nat) (pendingTask : Bool) :
    Option ℚ × Nat :=
  if pendingTask then (none, attempts)
  else (some (backoff ^ (attempts + 1)), attempts + 1)

/-- `EnhancedAccount.onRegState` (src/app/sip_client.py lines 275-335):
status 200 resets the counter; any other status is a failure, and a
reconnect is scheduled only while
`registration_attempts < sip_registration_retry_max`. -/
def enhancedOnRegState (retryMax : Nat) (backoff : ℚ) (regStatus attempts : Nat)
    (pendingTask : Bool) : Option ℚ × Nat :=
  if regStatus = 200 then (none, 0)
  else if attempts < retryMax then enhancedScheduleReconnect backoff attempts pendingTask
  else (none, attempts)

/-! ### Realtime commit gating (src/app/agent.py lines 608-627, 757-759)

```python
async def _send_realtime_commit(self) -> None:
    if self._realtime_input_committed or not self.ws or self.ws.closed:
        return
    message = json.dumps({"type": "input_audio_buffer.commit"})
    ...
    try:
        await self._ws_send(message)
        self._realtime_input_committed = True
        ...
    except Exception as err:
        ...  # flag stays False, nothing was recorded as sent
```
and in `start_openai_agent_realtime`, right after the connection is
established: `self.ws = ws; self._realtime_input_committed = False`.

The per-connection state tracks whether the socket is open, the committed
flag, and how many commit messages were sent on this connection.  A session
event is either an invocation of `_send_realtime_commit` (whose underlying
WebSocket send may succeed or fail) or the socket closing.
-/

structure RealtimeSessionState where
  wsOpen : Bool
  committed : Bool
  commits : Nat
deriving DecidableEq

/-- State right after `start_openai_agent_realtime` establishes a
connection: socket open, committed flag reset to `False`, nothing sent. -/
def initRealtimeSession : RealtimeSessionState :=
  { wsOpen := true, committed := false, commits := 0 }

inductive SessionEvent where
  | commitAttempt (sendOk : Bool)
  | socketClosed
deriving DecidableEq

/-- `_send_realtime_commit`: a no-op when already committed or the socket is
unavailable; otherwise the send either succeeds (message sent, flag set) or
raises (nothing sent, flag unchanged). -/
def sendRealtimeCommit (sendOk : Bool) (s : RealtimeSessionState) : RealtimeSessionState :=
  if s.committed || !s.wsOpen then s
  else if sendOk then { wsOpen := s.wsOpen, committed := true, commits := s.commits + 1 }
  else s

def sessionStep (s : RealtimeSessionState) (e : SessionEvent) : RealtimeSessionState :=
  match e with
  | SessionEvent.commitAttempt ok => sendRealtimeCommit ok s
  | SessionEvent.socketClosed => { s with wsOpen := false }

/-- Run one realtime connection through a sequence of commit attempts and
socket closures, in any order. -/
def runSession (events : List SessionEvent) : RealtimeSessionState :=
  events.foldl sessionStep initRealtimeSession

/-- A `Call` whose realtime session is restarted: each element is the event
sequence of one connection; each new connection resets the committed flag
(agent.py line 759).  Returns the number of commit messages sent on each
connection. -/
def runCallConnections (connections : List (List SessionEvent)) : List Nat :=
  connections.map (fun events => (runSession events).commits)

/-! ### Send loop / receive loop interleaving (src/app/agent.py lines 769-807,
869-918, 964-1029)

The realtime provider session runs two concurrent loops over one socket:

* `send_audio_to_openai_realtime` sends one `input_audio_buffer.append`
  message per capture frame while `audio_callback.is_active`;
* `receive_audio_from_openai_realtime` processes inbound messages, and on
  `response.completed` calls `_send_realtime_commit` — regardless of whether
  the send loop is still running;
* when the send task finishes, `start_openai_agent_realtime` runs
  `await self._send_realtime_commit()` in its `finally` block, then closes
  the socket.

The wire log records each outbound message; a commit entry is tagged with
the trigger that produced it and with whether the send loop was still
producing capture frames at the moment it was sent.
-/

inductive CommitTrigger where
  | sendLoopEnd
  | responseCompleted
deriving DecidableEq

inductive WireMsg where
  | audioAppend
  | commitMsg (senderActiveAtSend : Bool) (trigger : CommitTrigger)
deriving DecidableEq

structure BridgeState where
  senderActive : Bool
  committed : Bool
  wsOpen : Bool
  sent : List WireMsg
deriving DecidableEq

def initBridge : BridgeState :=
  { senderActive := true, committed := false, wsOpen := true, sent := [] }

/-- One interleaving step of the two loops (plus the structured epilogue of
`start_openai_agent_realtime`).  `captureFrame` is one iteration of the send
loop; `sendLoopStops` is the send loop exiting (bridge stopped or task
cancelled); `sendLoopFinallyCommit` is the commit in the `finally` block,
which the control flow only reaches after the send loop has exited;
`recvCompleted` is the receive loop handling a `response.completed`
message; `closeSocket` is `_close_websocket`. -/
inductive BridgeAction where
  | captureFrame
  | sendLoopStops
  | sendLoopFinallyCommit
  | recvCompleted
  | closeSocket
deriving DecidableEq

/-- The body of `_send_realtime_commit`, recording the sent message on the
wire log (send success assumed). -/
def commitOnWire (trigger : CommitTrigger) (s : BridgeState) : BridgeState :=
  if s.committed || !s.wsOpen then s
  else { s with committed := true,
                sent := s.sent ++ [WireMsg.commitMsg s.senderActive trigger] }

def bridgeStep (s : BridgeState) (a : BridgeAction) : BridgeState :=
  match a with
  | BridgeAction.captureFrame =>
    if s.senderActive && s.wsOpen then { s with sent := s.sent ++ [WireMsg.audioAppend] }
    else s
  | BridgeAction.sendLoopStops => { s with senderActive := false }
  | BridgeAction.sendLoopFinallyCommit =>
    if s.senderActive then s else commitOnWire CommitTrigger.sendLoopEnd s
  | BridgeAction.recvCompleted =>
    if s.wsOpen then commitOnWire CommitTrigger.responseCompleted s else s
  | BridgeAction.closeSocket => { s with wsOpen := false }

def runBridge (actions : List BridgeAction) : BridgeState :=
  actions.foldl bridgeStep initBridge

/-! ### `AudioCallback._blocking_put` (src/app/agent.py lines 267-277)

```python
def _blocking_put(self, target_queue, data):
    while self.is_active:
        try:
            target_queue.put(data, timeout=0.1)
            return
        except queue.Full:
            if self._stop_event.is_set():
                break
    with contextlib.suppress(queue.Full):
        target_queue.put_nowait(data)
```
Each loop iteration observes the environment: whether `is_active` held at
the loop head, whether the 0.1-second `put` timed out on a full queue, and
whether the stop event was set.  `blockingPutAux sched i fuel` runs up to
`fuel` iterations starting at iteration index `i`; `none` means the loop is
still spinning after `fuel` iterations.
-/

structure PutObs where
  isActive : Bool
  queueFull : Bool
  stopSet : Bool
deriving DecidableEq

/-- How one `_blocking_put` call exits: `enqueued i` means the timed `put`
succeeded at iteration `i`; `fellThrough i` means the loop exited at
iteration `i` (inactive bridge, or full queue with the stop event set) and
the final non-blocking `put_nowait` ran — enqueueing if space appeared,
silently dropping the frame otherwise. -/
inductive PutExit where
  | enqueued (iter : Nat)
  | fellThrough (iter : Nat)
deriving DecidableEq

def blockingPutAux (sched : Nat → PutObs) : Nat → Nat → Option PutExit
  | _, 0 => none
  | i, fuel + 1 =>
    let o := sched i
    if !o.isActive then some (PutExit.fellThrough i)
    else if !o.queueFull then some (PutExit.enqueued i)
    else if o.stopSet then some (PutExit.fellThrough i)
    else blockingPutAux sched (i + 1) fuel

/-- The environment of a bridge that stays active with a saturated queue and
no stop request: the consumer is too slow, exactly the claim's scenario. -/
def stalledSchedule : Nat → PutObs :=
  fun _ => { isActive := true, queueFull := true, stopSet := false }

/-! ### Realtime receive loops (src/app/agent.py lines 984-1019 and
src/app/openai_agent.py lines 417-483)

An inbound message is classified by what the loop body does with it:
`invalidJson` fails `json.loads`; `outputDelta ok payload` is a
`response.output_audio.delta` whose base64 decode succeeds/fails;
`transcriptDelta` is a `response.audio_transcript.delta`; `completed` is
`response.completed`; `errorMsg` has `type == "error"`; `otherMsg` is any
other type.

`agentRecvLoop` embeds `Call.receive_audio_from_openai_realtime`
(agent.py): invalid JSON hits `continue`; a delta is decoded and queued for
playback; `response.completed` triggers a commit attempt; every other type —
including `"error"` — falls through the `if/elif` chain and the loop
continues.  It returns (messages processed, playback chunks, commit
attempts).

`openaiRecvLoop` embeds `OpenAIAgent._receive_audio_realtime`
(openai_agent.py): the same shape, except `msg_type == "error"` executes
`break`, ending the loop with the remaining messages unprocessed.  It
returns (messages processed, playback chunks).
-/

inductive RtInbound where
  | invalidJson
  | outputDelta (decodeOk : Bool) (payload : List Nat)
  | transcriptDelta
  | completed
  | errorMsg
  | otherMsg
deriving DecidableEq

def agentRecvLoop : List RtInbound → Nat × List (List Nat) × Nat
  | [] => (0, [], 0)
  | m :: rest =>
    let r := agentRecvLoop rest
    match m with
    | RtInbound.outputDelta true payload => (r.1 + 1, payload :: r.2.1, r.2.2)
    | RtInbound.completed => (r.1 + 1, r.2.1, r.2.2 + 1)
    | _ => (r.1 + 1, r.2.1, r.2.2)

def openaiRecvLoop : List RtInbound → Nat × List (List Nat)
  | [] => (0, [])
  | m :: rest =>
    match m with
    | RtInbound.errorMsg => (1, [])
    | RtInbound.outputDelta true payload =>
      let r := openaiRecvLoop rest
      (r.1 + 1, payload :: r.2)
    | _ =>
      let r := openaiRecvLoop rest
      (r.1 + 1, r.2)

/-- Wire-log classifier: is a message the `input_audio_buffer.commit`
message? -/
def isCommitMsg : WireMsg → Bool
  | WireMsg.commitMsg _ _ => true
  | _ => false

/-- Commit-count invariant of one realtime connection: the number of commit
messages sent equals 1 exactly when the `_realtime_input_committed` flag is
set. -/
def sessionInv (s : RealtimeSessionState) : Prop :=
  s.commits = if s.committed = true then 1 else 0

/-- Commit-count invariant of the interleaved send/receive model, stated on
the wire log. -/
def bridgeCountInv (s : BridgeState) : Prop :=
  (s.sent.filter isCommitMsg).length = if s.committed = true then 1 else 0

/-- Trigger-tag invariant of the interleaved model: every commit that the
`finally` block of `start_openai_agent_realtime` put on the wire was sent
with the send loop already stopped. -/
def bridgeTagInv (s : BridgeState) : Prop :=
  ∀ m ∈ s.sent, ∀ act : Bool,
    m = WireMsg.commitMsg act CommitTrigger.sendLoopEnd → act = false

end SipAgent

open SipAgent

/-! ## Helper lemmas -/

theorem FRAME_BYTES_eq : FRAME_BYTES = 640 := rfl

theorem FRAME_BYTES_pos : 0 < FRAME_BYTES := by decide

theorem normalizeChunk_length (data : List Nat) :
    (normalizeChunk data).length = FRAME_BYTES := by
  unfold normalizeChunk
  by_cases he : data = []
  · rw [if_pos he]
    simp
  · rw [if_neg he]
    by_cases h1 : data.length < FRAME_BYTES
    · rw [if_pos h1]
      simp
      omega
    · rw [if_neg h1]
      by_cases h2 : FRAME_BYTES < data.length
      · rw [if_pos h2]
        simp
        omega
      · rw [if_neg h2]
        omega

theorem normalizeChunk_of_length_eq {xs : List Nat}
    (h : xs.length = FRAME_BYTES) : normalizeChunk xs = xs := by
  have hne : xs ≠ [] := by
    intro hnil
    rw [hnil] at h
    rw [FRAME_BYTES_eq] at h
    exact absurd h.symm (by decide)
  unfold normalizeChunk
  rw [if_neg hne, if_neg (by omega), if_neg (by omega)]

theorem takeFrames_flatten (n : Nat) : ∀ buf : List Nat,
    (takeFrames n buf).1.flatten ++ (takeFrames n buf).2 = buf := by
  induction n with
  | zero =>
    intro buf
    simp [takeFrames]
  | succ n ih =>
    intro buf
    unfold takeFrames
    by_cases h : FRAME_BYTES ≤ buf.length
    · rw [if_pos h]
      simp only [List.flatten_cons, List.append_assoc]
      rw [ih]
      exact List.take_append_drop _ _
    · rw [if_neg h]
      simp

theorem takeFrames_frame_length (n : Nat) : ∀ buf f, f ∈ (takeFrames n buf).1 →
    f.length = FRAME_BYTES := by
  induction n with
  | zero =>
    intro buf f hf
    simp [takeFrames] at hf
  | succ n ih =>
    intro buf f hf
    unfold takeFrames at hf
    by_cases h : FRAME_BYTES ≤ buf.length
    · rw [if_pos h] at hf
      rcases List.mem_cons.mp hf with h1 | h2
      · subst h1
        simp
        omega
      · exact ih _ f h2
    · rw [if_neg h] at hf
      simp at hf

theorem takeFrames_rest_lt (n : Nat) : ∀ buf : List Nat,
    buf.length < (n + 1) * FRAME_BYTES →
    (takeFrames n buf).2.length < FRAME_BYTES := by
  induction n with
  | zero =>
    intro buf h
    simp only [takeFrames]
    omega
  | succ n ih =>
    intro buf h
    unfold takeFrames
    by_cases hc : FRAME_BYTES ≤ buf.length
    · rw [if_pos hc]
      refine ih _ ?_
      rw [List.length_drop]
      rw [FRAME_BYTES_eq] at h hc ⊢
      omega
    · rw [if_neg hc]
      show buf.length < FRAME_BYTES
      omega

theorem putFrame_spec (buffer data : List Nat) :
    (putFrame buffer data).1.flatten ++ (putFrame buffer data).2 = buffer ++ data ∧
    (∀ f ∈ (putFrame buffer data).1, f.length = FRAME_BYTES) ∧
    (putFrame buffer data).2.length < FRAME_BYTES := by
  refine ⟨takeFrames_flatten _ _, fun f hf => takeFrames_frame_length _ _ f hf, ?_⟩
  apply takeFrames_rest_lt
  have h1 := Nat.div_add_mod (buffer ++ data).length FRAME_BYTES
  have h2 : (buffer ++ data).length % FRAME_BYTES < FRAME_BYTES :=
    Nat.mod_lt _ FRAME_BYTES_pos
  rw [FRAME_BYTES_eq] at h1 h2 ⊢
  omega

theorem sessionStep_inv (s : RealtimeSessionState) (e : SessionEvent)
    (h : sessionInv s) : sessionInv (sessionStep s e) := by
  obtain ⟨w, c, k⟩ := s
  cases e with
  | socketClosed => simpa [sessionInv, sessionStep] using h
  | commitAttempt ok =>
    cases c with
    | true => simpa [sessionInv, sessionStep, sendRealtimeCommit] using h
    | false =>
      cases w with
      | false => simpa [sessionInv, sessionStep, sendRealtimeCommit] using h
      | true =>
        cases ok with
        | true =>
          simp [sessionInv, sessionStep, sendRealtimeCommit] at h ⊢
          omega
        | false => simpa [sessionInv, sessionStep, sendRealtimeCommit] using h

theorem foldl_sessionStep_inv (events : List SessionEvent) :
    ∀ s : RealtimeSessionState, sessionInv s →
    sessionInv (events.foldl sessionStep s) := by
  induction events with
  | nil => intro s h; exact h
  | cons e rest ih => intro s h; exact ih _ (sessionStep_inv s e h)

theorem runSession_inv (events : List SessionEvent) :
    sessionInv (runSession events) :=
  foldl_sessionStep_inv events initRealtimeSession (by simp [sessionInv, initRealtimeSession])

theorem sendRealtimeCommit_wsOpen (ok : Bool) (s : RealtimeSessionState) :
    (sendRealtimeCommit ok s).wsOpen = s.wsOpen := by
  unfold sendRealtimeCommit
  split
  · rfl
  · split
    · rfl
    · rfl

theorem foldl_sessionStep_wsOpen (events : List SessionEvent) :
    ∀ s : RealtimeSessionState, SessionEvent.socketClosed ∉ events → s.wsOpen = true →
    (events.foldl sessionStep s).wsOpen = true := by
  induction events with
  | nil => intro s _ hw; exact hw
  | cons e rest ih =>
    intro s hmem hw
    have hrest : SessionEvent.socketClosed ∉ rest :=
      fun hx => hmem (List.mem_cons_of_mem _ hx)
    cases e with
    | socketClosed => exact absurd (List.mem_cons_self _ _) hmem
    | commitAttempt ok =>
      refine ih _ hrest ?_
      rw [show sessionStep s (SessionEvent.commitAttempt ok) = sendRealtimeCommit ok s from rfl]
      rw [sendRealtimeCommit_wsOpen]
      exact hw

theorem sendRealtimeCommit_true_committed (s : RealtimeSessionState)
    (hw : s.wsOpen = true) : (sendRealtimeCommit true s).committed = true := by
  obtain ⟨w, c, k⟩ := s
  simp only at hw
  subst hw
  cases c with
  | true => rfl
  | false => rfl

theorem sessionStep_committed_mono (s : RealtimeSessionState) (e : SessionEvent)
    (h : s.committed = true) : (sessionStep s e).committed = true := by
  cases e with
  | socketClosed => exact h
  | commitAttempt ok => simp [sessionStep, sendRealtimeCommit, h]

theorem foldl_sessionStep_committed_mono (events : List SessionEvent) :
    ∀ s : RealtimeSessionState, s.committed = true →
    (events.foldl sessionStep s).committed = true := by
  induction events with
  | nil => intro s h; exact h
  | cons e rest ih => intro s h; exact ih _ (sessionStep_committed_mono s e h)

/-! ## Claim theorems -/

/-- Claim C5: `_normalize_chunk` always returns a value of length exactly
`FRAME_BYTES`: a zero-length input yields `FRAME_BYTES` zero bytes, a shorter
input is zero-padded on the right, and a longer input is truncated to its
first `FRAME_BYTES` bytes. -/
theorem C5_normalize_chunk_frame_invariant (data : List Nat) :
    (normalizeChunk data).length = FRAME_BYTES ∧
    (data = [] → normalizeChunk data = List.replicate FRAME_BYTES 0) ∧
    (data.length < FRAME_BYTES →
      normalizeChunk data = data ++ List.replicate (FRAME_BYTES - data.length) 0) ∧
    (FRAME_BYTES < data.length → normalizeChunk data = data.take FRAME_BYTES) := by
  refine ⟨normalizeChunk_length data, ?_, ?_, ?_⟩
  · intro h
    subst h
    rfl
  · intro h
    cases data with
    | nil =>
      simp [normalizeChunk]
    | cons a as =>
      unfold normalizeChunk
      rw [if_neg (List.cons_ne_nil a as), if_pos h]
  · intro h
    have hne : data ≠ [] := by
      intro hnil
      rw [hnil] at h
      exact absurd h (by simp)
    unfold normalizeChunk
    rw [if_neg hne, if_neg (by omega), if_pos h]

/-- Witness for C5: concrete evaluations discharging the emptiness,
too-short and too-long hypotheses. -/
theorem C5_normalize_chunk_frame_invariant_witness :
    normalizeChunk [] = List.replicate FRAME_BYTES 0 ∧
    normalizeChunk (List.replicate 2 7) =
      List.replicate 2 7 ++
        List.replicate (FRAME_BYTES - (List.replicate 2 7).length) 0 ∧
    normalizeChunk (List.replicate 641 7) = (List.replicate 641 7).take FRAME_BYTES := by
  refine ⟨(C5_normalize_chunk_frame_invariant []).2.1 rfl, ?_, ?_⟩
  · exact (C5_normalize_chunk_frame_invariant (List.replicate 2 7)).2.2.1
      (by rw [List.length_replicate]; decide)
  · exact (C5_normalize_chunk_frame_invariant (List.replicate 641 7)).2.2.2
      (by rw [List.length_replicate]; decide)

/-- Claim C9: `_normalize_chunk` is idempotent — re-normalizing an already
exactly-sized frame leaves it unchanged, so composing the operation with
itself equals a single application. -/
theorem C9_normalize_chunk_idempotent (data : List Nat) :
    normalizeChunk (normalizeChunk data) = normalizeChunk data :=
  normalizeChunk_of_length_eq (normalizeChunk_length data)

/-- Claim C6: the append path accumulates bytes and slices off successive
`FRAME_BYTES`-sized frames oldest-first, leaving the remainder buffered:
the emitted frames concatenated with the new buffer reproduce the old buffer
followed by the appended chunk, every emitted frame has length `FRAME_BYTES`,
and the remainder is shorter than one frame.  Concretely, appending 960 bytes
at 640-byte frames emits one full frame with 320 bytes left buffered, and a
subsequent 320-byte append emits the second frame with an empty remainder. -/
theorem C6_append_accumulates_and_slices_frames :
    (∀ buffer data : List Nat,
      (putFrame buffer data).1.flatten ++ (putFrame buffer data).2 = buffer ++ data ∧
      (∀ f ∈ (putFrame buffer data).1, f.length = FRAME_BYTES) ∧
      (putFrame buffer data).2.length < FRAME_BYTES) ∧
    putFrame [] (List.replicate 960 1) =
      ([List.replicate 640 1], List.replicate 320 1) ∧
    putFrame (List.replicate 320 1) (List.replicate 320 1) =
      ([List.replicate 640 1], []) := by
  refine ⟨putFrame_spec, ?_, ?_⟩
  · unfold putFrame
    rw [List.nil_append, List.length_replicate]
    rw [show 960 / FRAME_BYTES = 1 from by rw [FRAME_BYTES_eq]]
    unfold takeFrames
    rw [if_pos (by rw [List.length_replicate]; decide)]
    unfold takeFrames
    rw [List.take_replicate, List.drop_replicate, FRAME_BYTES_eq]
    norm_num
  · unfold putFrame
    rw [show List.replicate 320 1 ++ List.replicate 320 1 = List.replicate 640 (1 : Nat)
      from by rw [← List.replicate_add]]
    rw [List.length_replicate]
    rw [show 640 / FRAME_BYTES = 1 from by rw [FRAME_BYTES_eq]]
    unfold takeFrames
    rw [if_pos (by rw [List.length_replicate]; decide)]
    unfold takeFrames
    rw [List.take_replicate, List.drop_replicate, FRAME_BYTES_eq]
    norm_num

/-- Witness for C6: the frame-shape part applied at a concrete buffer and
chunk, discharging the frame-membership hypothesis. -/
theorem C6_append_accumulates_and_slices_frames_witness :
    (List.replicate 640 (1 : Nat)).length = FRAME_BYTES := by
  have h := (C6_append_accumulates_and_slices_frames.1 [] (List.replicate 960 1)).2.1
  have hm : List.replicate 640 (1 : Nat) ∈ (putFrame [] (List.replicate 960 1)).1 := by
    rw [C6_append_accumulates_and_slices_frames.2.1]
    exact List.mem_singleton.mpr rfl
  exact h _ hm

/-- Claim C7: invite-retry delays `min(base * 2^attempts, max_delay)` are
non-decreasing in the attempts counter and capped at `max_delay`; the
scheduler stops rearming once `attempts >= max_attempts`; an outbound call
repeatedly disconnecting with a 4xx-5xx status (e.g. 503, which passes the
disconnect gate) and `max_attempts = 5` produces exactly 5 retry schedules
with doubling delay, then a terminal limit-reached event and no 6th
schedule. -/
theorem C7_invite_retry_monotone_capped_bounded :
    (∀ i j : Nat, i ≤ j → inviteDelay i ≤ inviteDelay j) ∧
    (∀ i : Nat, inviteDelay i ≤ SIP_INVITE_RETRY_MAX) ∧
    (∀ a : Nat, SIP_INVITE_MAX_ATTEMPTS ≤ a →
      scheduleInviteRetry a = (InviteRetryOutcome.limitReached, a)) ∧
    disconnectSchedulesRetry true true 503 = true ∧
    inviteRetryLoop 6 0 =
      [InviteRetryOutcome.scheduled 1, InviteRetryOutcome.scheduled 2,
       InviteRetryOutcome.scheduled 4, InviteRetryOutcome.scheduled 8,
       InviteRetryOutcome.scheduled 16, InviteRetryOutcome.limitReached] := by
  refine ⟨?_, ?_, ?_, by decide, ?_⟩
  · intro i j hij
    unfold inviteDelay
    refine min_le_min (mul_le_mul_of_nonneg_left ?_ (by norm_num [SIP_INVITE_RETRY_BASE])) le_rfl
    exact pow_le_pow_right₀ (by norm_num) hij
  · intro i
    exact min_le_right _ _
  · intro a ha
    unfold scheduleInviteRetry
    rw [if_pos ha]
  · norm_num [inviteRetryLoop, scheduleInviteRetry, SIP_INVITE_MAX_ATTEMPTS,
      SIP_INVITE_RETRY_BASE, SIP_INVITE_RETRY_MAX]

/-- Witness for C7: the monotonicity and limit-reached parts applied at
concrete attempt counts. -/
theorem C7_invite_retry_monotone_capped_bounded_witness :
    inviteDelay 1 ≤ inviteDelay 3 ∧
    scheduleInviteRetry 7 = (InviteRetryOutcome.limitReached, 7) :=
  ⟨C7_invite_retry_monotone_capped_bounded.1 1 3 (by norm_num),
   C7_invite_retry_monotone_capped_bounded.2.2.1 7 (by norm_num [SIP_INVITE_MAX_ATTEMPTS])⟩

/-- Counterexample for C8: the claim states that registration retry never
stops rearming, for every attempts value; but `EnhancedAccount.onRegState`
(src/app/sip_client.py) stops scheduling reconnects once
`registration_attempts` reaches `sip_registration_retry_max`: with
`retry_max = 3`, failure status 503 and `attempts = 3`, no retry is
scheduled. -/
theorem C8_registration_retry_unbounded_counterexample :
    ¬ (∀ attempts : Nat,
        ((enhancedOnRegState 3 2 503 attempts false).1).isSome = true) := by
  intro h
  exact absurd (h 3) (by decide)

/-- Claim C8 (amended): the registration-retry scheduler of
`Account` in agent.py is the unbounded variant — for every 4xx-5xx failure
status and every attempts value it schedules another retry with delay
`min(base * 2^attempts, max_delay)` — while the registration retry of
`EnhancedAccount` in sip_client.py is bounded: once
`attempts >= sip_registration_retry_max` the failure path schedules
nothing. -/
theorem C8_registration_retry_amended :
    (∀ status attempts : Nat, 400 ≤ status → status < 600 →
      onRegState status attempts =
        (RegAction.scheduled (min (SIP_REG_RETRY_BASE * 2 ^ attempts) SIP_REG_RETRY_MAX),
         attempts + 1)) ∧
    (∀ (retryMax : Nat) (backoff : ℚ) (status attempts : Nat), retryMax ≤ attempts →
      status ≠ 200 →
      (enhancedOnRegState retryMax backoff status attempts false).1 = none) := by
  constructor
  · intro status attempts h4 h6
    unfold onRegState
    rw [if_neg (by omega), if_pos ⟨h4, h6⟩]
    rfl
  · intro retryMax backoff status attempts hle hne
    unfold enhancedOnRegState
    rw [if_neg hne, if_neg (by omega)]

/-- Witness for C8: the amended claim applied at concrete statuses and
attempt counts. -/
theorem C8_registration_retry_amended_witness :
    onRegState 503 4 =
      (RegAction.scheduled (min (SIP_REG_RETRY_BASE * 2 ^ 4) SIP_REG_RETRY_MAX), 5) ∧
    (enhancedOnRegState 3 2 503 5 false).1 = none :=
  ⟨C8_registration_retry_amended.1 503 4 (by norm_num) (by norm_num),
   C8_registration_retry_amended.2 3 2 503 5 (by norm_num) (by norm_num)⟩

/-- Claim C1: for a realtime provider session, no matter how many commit
attempts (from send-loop end, `response.completed` handling or explicit
close paths) and socket closures occur, in whatever order, the number of
`input_audio_buffer.commit` messages sent on the connection is at most one —
every attempt goes through `_send_realtime_commit`, gated by
`_realtime_input_committed` — and it is exactly one as soon as some attempt
runs with the socket still open and the send succeeding. -/
theorem C1_commit_sent_exactly_once (events : List SessionEvent) :
    (runSession events).commits ≤ 1 ∧
    (∀ pre post, events = pre ++ SessionEvent.commitAttempt true :: post →
      SessionEvent.socketClosed ∉ pre → (runSession events).commits = 1) := by
  constructor
  · have h := runSession_inv events
    unfold sessionInv at h
    split at h <;> omega
  · intro pre post hev hpre
    have hinv1 : sessionInv (pre.foldl sessionStep initRealtimeSession) :=
      foldl_sessionStep_inv pre initRealtimeSession
        (by simp [sessionInv, initRealtimeSession])
    have hw : (pre.foldl sessionStep initRealtimeSession).wsOpen = true :=
      foldl_sessionStep_wsOpen pre initRealtimeSession hpre rfl
    have hstep :
        (sessionStep (pre.foldl sessionStep initRealtimeSession)
          (SessionEvent.commitAttempt true)).committed = true :=
      sendRealtimeCommit_true_committed _ hw
    have hfin :
        ((SessionEvent.commitAttempt true :: post).foldl sessionStep
          (pre.foldl sessionStep initRealtimeSession)).committed = true := by
      rw [List.foldl_cons]
      exact foldl_sessionStep_committed_mono post _ hstep
    have hinv : sessionInv (runSession events) := runSession_inv events
    unfold runSession at hinv ⊢
    rw [hev, List.foldl_append] at hinv ⊢
    unfold sessionInv at hinv
    rw [hfin] at hinv
    simpa using hinv

/-- Witness for C1: two commit attempts followed by a close send exactly one
commit message. -/
theorem C1_commit_sent_exactly_once_witness :
    (runSession [SessionEvent.commitAttempt true, SessionEvent.commitAttempt true,
      SessionEvent.socketClosed]).commits = 1 :=
  (C1_commit_sent_exactly_once _).2 []
    [SessionEvent.commitAttempt true, SessionEvent.socketClosed] rfl (by simp)

/-- Claim C10: the at-most-once commit guarantee is scoped to one WebSocket
connection, not the `Call` object's lifetime: each connection starts with
`_realtime_input_committed = False` (reset in `start_openai_agent_realtime`),
within one connection the flag is set exactly when one successful commit
send happened, and a `Call` whose realtime session is restarted may send one
commit per connection (two connections, two commits in total). -/
theorem C10_commit_scope_is_per_connection :
    (∀ connections : List (List SessionEvent),
      ∀ c ∈ runCallConnections connections, c ≤ 1) ∧
    (∀ events : List SessionEvent,
      (runSession events).committed = true ↔ (runSession events).commits = 1) ∧
    runCallConnections
      [[SessionEvent.commitAttempt true], [SessionEvent.commitAttempt true]] = [1, 1] := by
  refine ⟨?_, ?_, by decide⟩
  · intro conns c hc
    unfold runCallConnections at hc
    rcases List.mem_map.mp hc with ⟨events, _, rfl⟩
    have h := runSession_inv events
    unfold sessionInv at h
    split at h <;> omega
  · intro events
    have h := runSession_inv events
    unfold sessionInv at h
    cases hcb : (runSession events).committed with
    | false =>
      rw [hcb] at h
      norm_num at h
      constructor
      · intro hx
        exact absurd hx (by simp)
      · intro h1
        exfalso
        omega
    | true =>
      rw [hcb] at h
      norm_num at h
      exact ⟨fun _ => h, fun _ => rfl⟩

/-- Witness for C10: the per-connection bound applied to a concrete
restarted call. -/
theorem C10_commit_scope_is_per_connection_witness :
    (1 : Nat) ≤ 1 :=
  C10_commit_scope_is_per_connection.1
    [[SessionEvent.commitAttempt true], [SessionEvent.commitAttempt true]] 1 (by decide)

theorem commitOnWire_countInv (trig : CommitTrigger) (s : BridgeState)
    (h : bridgeCountInv s) : bridgeCountInv (commitOnWire trig s) := by
  unfold commitOnWire
  split
  · exact h
  · rename_i hg
    unfold bridgeCountInv at h ⊢
    have hc : s.committed = false := by
      cases hcb : s.committed with
      | false => rfl
      | true =>
        exfalso
        apply hg
        rw [hcb]
        rfl
    rw [hc] at h
    simp only [Bool.false_eq_true, if_false] at h
    show ((s.sent ++ [WireMsg.commitMsg s.senderActive trig]).filter isCommitMsg).length
        = if true = true then 1 else 0
    rw [List.filter_append, List.length_append, h]
    rfl

theorem bridgeStep_countInv (s : BridgeState) (a : BridgeAction)
    (h : bridgeCountInv s) : bridgeCountInv (bridgeStep s a) := by
  cases a with
  | captureFrame =>
    simp only [bridgeStep]
    split
    · unfold bridgeCountInv at h ⊢
      simpa [List.filter_append, isCommitMsg] using h
    · exact h
  | sendLoopStops => exact h
  | sendLoopFinallyCommit =>
    simp only [bridgeStep]
    split
    · exact h
    · exact commitOnWire_countInv _ _ h
  | recvCompleted =>
    simp only [bridgeStep]
    split
    · exact commitOnWire_countInv _ _ h
    · exact h
  | closeSocket => exact h

theorem commitOnWire_tagInv (trig : CommitTrigger) (s : BridgeState)
    (h : bridgeTagInv s)
    (htag : trig = CommitTrigger.sendLoopEnd → s.senderActive = false) :
    bridgeTagInv (commitOnWire trig s) := by
  unfold commitOnWire
  split
  · exact h
  · intro m hm act hme
    rcases List.mem_append.mp hm with hm1 | hm2
    · exact h m hm1 act hme
    · rw [List.mem_singleton] at hm2
      subst hm2
      injection hme with h1 h2
      rw [← h1]
      exact htag h2

theorem bridgeStep_tagInv (s : BridgeState) (a : BridgeAction)
    (h : bridgeTagInv s) : bridgeTagInv (bridgeStep s a) := by
  cases a with
  | captureFrame =>
    simp only [bridgeStep]
    split
    · intro m hm act hme
      rcases List.mem_append.mp hm with hm1 | hm2
      · exact h m hm1 act hme
      · rw [List.mem_singleton] at hm2
        subst hm2
        cases hme
    · exact h
  | sendLoopStops =>
    intro m hm act hme
    exact h m hm act hme
  | sendLoopFinallyCommit =>
    simp only [bridgeStep]
    split
    · exact h
    · rename_i hact
      refine commitOnWire_tagInv _ _ h (fun _ => ?_)
      cases hs : s.senderActive with
      | false => rfl
      | true => exact absurd hs hact
  | recvCompleted =>
    simp only [bridgeStep]
    split
    · exact commitOnWire_tagInv _ _ h (fun hcontr => by cases hcontr)
    · exact h
  | closeSocket =>
    intro m hm act hme
    exact h m hm act hme

theorem foldl_bridgeStep_countInv (actions : List BridgeAction) :
    ∀ s : BridgeState, bridgeCountInv s →
    bridgeCountInv (actions.foldl bridgeStep s) := by
  induction actions with
  | nil => intro s h; exact h
  | cons a rest ih => intro s h; exact ih _ (bridgeStep_countInv s a h)

theorem foldl_bridgeStep_tagInv (actions : List BridgeAction) :
    ∀ s : BridgeState, bridgeTagInv s →
    bridgeTagInv (actions.foldl bridgeStep s) := by
  induction actions with
  | nil => intro s h; exact h
  | cons a rest ih => intro s h; exact ih _ (bridgeStep_tagInv s a h)

theorem runBridge_countInv (actions : List BridgeAction) :
    bridgeCountInv (runBridge actions) :=
  foldl_bridgeStep_countInv actions initBridge (by simp [bridgeCountInv, initBridge])

theorem runBridge_tagInv (actions : List BridgeAction) :
    bridgeTagInv (runBridge actions) :=
  foldl_bridgeStep_tagInv actions initBridge (by intro m hm act hme; simp [initBridge] at hm)

/-- Counterexample for C2: the claim says that in every interleaving of the
send loop and the receive loop no commit send precedes the termination of
capture-frame production; but if the provider delivers `response.completed`
while the send loop is still active, `receive_audio_from_openai_realtime`
calls `_send_realtime_commit` immediately: in the concrete interleaving
(capture frame, receive `response.completed`, capture frame) the commit is
sent while the sender is active and a further capture frame follows it on
the wire. -/
theorem C2_commit_before_capture_end_counterexample :
    ¬ (∀ actions : List BridgeAction, ∀ m ∈ (runBridge actions).sent,
        ∀ trig : CommitTrigger, m ≠ WireMsg.commitMsg true trig) := by
  intro h
  exact h [BridgeAction.captureFrame, BridgeAction.recvCompleted, BridgeAction.captureFrame]
    (WireMsg.commitMsg true CommitTrigger.responseCompleted)
    (by decide) CommitTrigger.responseCompleted rfl

/-- Claim C2 (amended): in every interleaving at most one commit message is
sent per connection, and every commit triggered by the send loop's
`finally` block is sent only after capture-frame production has terminated;
a commit triggered by a `response.completed` message received while the
send loop is active may, however, precede the send loop's termination. -/
theorem C2_commit_ordering_amended (actions : List BridgeAction) :
    ((runBridge actions).sent.filter isCommitMsg).length ≤ 1 ∧
    (∀ m ∈ (runBridge actions).sent, ∀ act : Bool,
      m = WireMsg.commitMsg act CommitTrigger.sendLoopEnd → act = false) := by
  constructor
  · have h := runBridge_countInv actions
    unfold bridgeCountInv at h
    split at h <;> omega
  · exact runBridge_tagInv actions

/-- Witness for C2: the send loop stops and the `finally` commit runs; the
commit on the wire is tagged as sent with the sender inactive. -/
theorem C2_commit_ordering_amended_witness :
    ((runBridge [BridgeAction.sendLoopStops, BridgeAction.sendLoopFinallyCommit]).sent.filter
      isCommitMsg).length ≤ 1 ∧ (false : Bool) = false :=
  ⟨(C2_commit_ordering_amended
      [BridgeAction.sendLoopStops, BridgeAction.sendLoopFinallyCommit]).1,
   (C2_commit_ordering_amended
      [BridgeAction.sendLoopStops, BridgeAction.sendLoopFinallyCommit]).2
     (WireMsg.commitMsg false CommitTrigger.sendLoopEnd) (by decide) false rfl⟩

theorem blockingPutAux_stalled (fuel : Nat) :
    ∀ i : Nat, blockingPutAux stalledSchedule i fuel = none := by
  induction fuel with
  | zero => intro i; rfl
  | succ n ih =>
    intro i
    simpa [blockingPutAux, stalledSchedule] using ih (i + 1)

theorem blockingPutAux_succ_iff (sched : Nat → PutObs) (i fuel : Nat) :
    blockingPutAux sched i (fuel + 1) = none ↔
    ((sched i).isActive = true ∧ (sched i).queueFull = true ∧
      (sched i).stopSet = false) ∧ blockingPutAux sched (i + 1) fuel = none := by
  rcases hsi : sched i with ⟨a, q, st⟩
  cases a with
  | false => simp [blockingPutAux, hsi]
  | true =>
    cases q with
    | false => simp [blockingPutAux, hsi]
    | true =>
      cases st with
      | false => simp [blockingPutAux, hsi]
      | true => simp [blockingPutAux, hsi]

/-- Counterexample for C3: the claim says the enqueue attempt terminates
after a bounded short timeout while the bridge stays active and the queue
stays full; but `_blocking_put` keeps retrying the 0.1-second `put` forever
in that situation — under the stalled schedule (bridge active, queue full,
stop event unset at every iteration) no amount of loop iterations makes the
call return, so no bound exists and the caller blocks indefinitely. -/
theorem C3_backpressure_timeout_counterexample :
    ¬ (∃ fuel : Nat, (blockingPutAux stalledSchedule 0 fuel).isSome = true) := by
  rintro ⟨fuel, hf⟩
  rw [blockingPutAux_stalled fuel 0] at hf
  exact absurd hf (by decide)

/-- Claim C3 (amended): a `_blocking_put` enqueue attempt is still looping
after `fuel` iterations exactly when every one of those iterations observed
the bridge active, the queue full and the stop event unset; equivalently,
the call terminates (enqueueing, or falling through to the final
non-blocking put that drops the frame if the queue is still full) only once
the bridge is deactivated, the queue gains space within the 0.1-second put
window, or the stop event is observed — there is no bound on the blocking
time while the bridge stays active with a full queue, and no backpressure
event is emitted. -/
theorem C3_blocking_put_terminates_amended (sched : Nat → PutObs) :
    ∀ fuel i : Nat, (blockingPutAux sched i fuel = none ↔
      ∀ j < fuel, (sched (i + j)).isActive = true ∧
        (sched (i + j)).queueFull = true ∧ (sched (i + j)).stopSet = false) := by
  intro fuel
  induction fuel with
  | zero =>
    intro i
    simp [blockingPutAux]
  | succ n ih =>
    intro i
    rw [blockingPutAux_succ_iff, ih (i + 1)]
    constructor
    · rintro ⟨hP, hrest⟩ j hj
      cases j with
      | zero => simpa using hP
      | succ k =>
        have hk := hrest k (by omega)
        simpa [show i + 1 + k = i + (k + 1) from by omega] using hk
    · intro hall
      refine ⟨by simpa using hall 0 (by omega), fun k hk => ?_⟩
      have hk1 := hall (k + 1) (by omega)
      simpa [show i + (k + 1) = i + 1 + k from by omega] using hk1

/-- Witness for C3 (amended): under the stalled schedule the loop is still
spinning after two iterations, by the characterization applied at a
concrete schedule and fuel. -/
theorem C3_blocking_put_terminates_amended_witness :
    blockingPutAux stalledSchedule 0 2 = none :=
  (C3_blocking_put_terminates_amended stalledSchedule 2 0).mpr (by decide)

/-- Counterexample for C4: the claim says every realtime receive loop
terminates on a message whose type is `"error"`; but
`Call.receive_audio_from_openai_realtime` (agent.py) has no `error` branch —
the message falls through the `if/elif` chain and the loop continues,
processing the subsequent message as well. -/
theorem C4_error_terminates_loop_counterexample :
    ¬ (∀ rest : List RtInbound,
        (agentRecvLoop (RtInbound.errorMsg :: rest)).1 = 1) := by
  intro h
  exact absurd (h [RtInbound.otherMsg]) (by decide)

/-- Claim C4 (amended): in `OpenAIAgent._receive_audio_realtime`
(openai_agent.py) an inbound `error` message terminates the receive loop —
the remaining messages are not processed — and invalid JSON is skipped with
the loop continuing; in `Call.receive_audio_from_openai_realtime` (agent.py)
invalid JSON is likewise skipped, but an `error` message is ignored like any
unrecognized type and the loop processes every delivered message. -/
theorem C4_error_terminates_loop_amended :
    (∀ rest : List RtInbound, openaiRecvLoop (RtInbound.errorMsg :: rest) = (1, [])) ∧
    (∀ rest : List RtInbound, openaiRecvLoop (RtInbound.invalidJson :: rest) =
      ((openaiRecvLoop rest).1 + 1, (openaiRecvLoop rest).2)) ∧
    (∀ msgs : List RtInbound, (agentRecvLoop msgs).1 = msgs.length) ∧
    (∀ rest : List RtInbound, agentRecvLoop (RtInbound.invalidJson :: rest) =
      ((agentRecvLoop rest).1 + 1, (agentRecvLoop rest).2.1, (agentRecvLoop rest).2.2)) := by
  refine ⟨fun rest => rfl, fun rest => rfl, ?_, fun rest => rfl⟩
  intro msgs
  induction msgs with
  | nil => rfl
  | cons m rest ih =>
    cases m with
    | invalidJson => simp [agentRecvLoop, ih]
    | outputDelta ok payload =>
      cases ok with
      | true => simp [agentRecvLoop, ih]
      | false => simp [agentRecvLoop, ih]
    | transcriptDelta => simp [agentRecvLoop, ih]
    | completed => simp [agentRecvLoop, ih]
    | errorMsg => simp [agentRecvLoop, ih]
    | otherMsg => simp [agentRecvLoop, ih]
